import Mathlib

/-!
Verification of the intersection-topology / turn-legality engine and the
mismatched-geometry validator of the iD repository.

The validator (`validationMismatchedGeometry`) is embedded directly from
`src/modules/validations/mismatched_geometry.js`.  The intersection / turn
engine (`iD.geo.Intersection`) is not present in the repository's source
files — only its test suite is — so its definitions below are modelled from
the specification (sections 3, 4.2-4.5 and 7) and checked against the test
suite that ships in the source tree.
-/

namespace IdEngine

/-- A tag mapping: string key to string value, keys unique. -/
abbrev Tags := List (String × String)

/-- Look up a tag value by key. -/
def tagLookup (tags : Tags) (k : String) : Option String :=
  (tags.find? (fun p => p.1 == k)).map (fun p => p.2)

/-- A way: identity, ordered node-id sequence, tag mapping. -/
structure Way where
  id : String
  nodes : List String
  tags : Tags
deriving Repr, DecidableEq

/-- A relation member: referenced entity id, entity kind, role. -/
structure Member where
  id : String
  mtype : String
  role : String
deriving Repr, DecidableEq

/-- A relation: identity, tag mapping, ordered member list. -/
structure Relation where
  id : String
  tags : Tags
  members : List Member
deriving Repr, DecidableEq

/-- Graph snapshot: the ways and relations (node records carry no data the
turn engine reads, so they are omitted; node identities appear inside ways). -/
structure Graph where
  ways : List Way
  relations : List Relation
deriving Repr, DecidableEq

/-- Modelled from the spec: a way's derived "closed" property (first node id
equals last node id and length at least 3); the implementation of the way
entity is not in the source files. -/
def wayClosed (w : Way) : Bool :=
  decide (w.nodes.length ≥ 3) && w.nodes.head? == w.nodes.getLast?

/-- Modelled from the spec: the externally supplied highway-classification
predicate, true when the tags carry a highway classification. -/
def isHighway (w : Way) : Bool :=
  (tagLookup w.tags "highway").isSome

/-- Modelled from the spec: tags indicating area semantics (an explicit
area=yes tag). -/
def isAreaTag (tags : Tags) : Bool :=
  tagLookup tags "area" == some "yes"

/-- Modelled from the spec: a way is an area rather than a traversable line
when it is closed and its tags indicate area semantics. -/
def isAreaNotLine (w : Way) : Bool :=
  wayClosed w && isAreaTag w.tags

/-- Modelled from the spec: a degenerate way has fewer than 2 distinct nodes. -/
def isDegenerate (w : Way) : Bool :=
  decide (w.nodes.dedup.length < 2)

/-- A highway segment: a way or one synthetic half of a split way; carries
its own id, node sequence, tags (inherited unchanged), and the originating
parent way's id. -/
structure Segment where
  id : String
  nodes : List String
  tags : Tags
  parent : String
deriving Repr, DecidableEq

/-- Modelled from the spec: the way splitter (spec 4.2).  If the vertex is an
endpoint of the way, the way itself is the single segment; otherwise the way
is split at the first interior occurrence of the vertex into two halves, one
from the first node through the vertex and one from the vertex through the
last node, both inheriting the way's tags, with ids suffixed ".a" / ".b". -/
def splitSegments (w : Way) (v : String) : List Segment :=
  if w.nodes.head? == some v || w.nodes.getLast? == some v then
    [⟨w.id, w.nodes, w.tags, w.id⟩]
  else
    match w.nodes.findIdx? (fun n => n == v) with
    | none => []
    | some i =>
      [⟨w.id ++ ".a", w.nodes.take (i + 1), w.tags, w.id⟩,
       ⟨w.id ++ ".b", w.nodes.drop i, w.tags, w.id⟩]

/-- Modelled from the spec: a way participates at a vertex when it references
the vertex, is a highway, is not an area, and is not degenerate (spec 4.3). -/
def wayAtVertex (w : Way) (v : String) : Bool :=
  w.nodes.contains v && isHighway w && !isAreaNotLine w && !isDegenerate w

/-- Modelled from the spec: the intersection builder (spec 4.3) — collect the
ways referencing the vertex in snapshot order, filter by the classification
predicates and degeneracy, and split each survivor at the vertex. -/
def buildIntersection (g : Graph) (v : String) : List Segment :=
  (g.ways.filter (fun w => wayAtVertex w v)).flatMap (fun w => splitSegments w v)

/-- One-way tag state of a segment. -/
inductive Oneway where
  | nolimit
  | fwd
  | rev
deriving Repr, DecidableEq

/-- Modelled from the spec: one-way tag interpretation — value yes/true/1 is
forward, value -1 is reverse, anything else imposes no limit (spec 4.4). -/
def onewayOf (tags : Tags) : Oneway :=
  let t := tagLookup tags "oneway"
  if t == some "yes" || t == some "true" || t == some "1" then .fwd
  else if t == some "-1" then .rev
  else .nolimit

/-- Modelled from the spec: the directionality resolver's "arrive at v"
direction (spec 4.4), evaluated on the segment's own node sequence. -/
def canArrive (s : Segment) (v : String) : Bool :=
  match onewayOf s.tags with
  | .nolimit => true
  | .fwd => !(s.nodes.head? == some v)
  | .rev => !(s.nodes.getLast? == some v)

/-- Modelled from the spec: the directionality resolver's "depart from v"
direction (spec 4.4). -/
def canDepart (s : Segment) (v : String) : Bool :=
  match onewayOf s.tags with
  | .nolimit => true
  | .fwd => !(s.nodes.getLast? == some v)
  | .rev => !(s.nodes.head? == some v)

/-- Modelled from the spec: the neighbor node of the vertex along a segment
having the vertex as an endpoint — the second node when the vertex is first,
the second-to-last node otherwise. -/
def neighborAt (s : Segment) (v : String) : Option String :=
  if s.nodes.head? == some v then s.nodes.get? 1
  else s.nodes.get? (s.nodes.length - 2)

/-- A turn record: neighbor node and parent way on the from side, via vertex,
neighbor node and parent way on the to side, and an optional restriction
relation id. -/
structure Turn where
  fromNode : String
  fromWay : String
  viaNode : String
  toNode : String
  toWay : String
  restriction : Option String
deriving Repr, DecidableEq

/-- First member of a relation carrying the given role. -/
def memberByRole (r : Relation) (role : String) : Option Member :=
  r.members.find? (fun m => m.role == role)

/-- Modelled from the spec: a relation governs the turn (fromWay, viaNode,
toWay) when it is tagged type=restriction and its from/via/to members resolve
to those entities; relations with missing members are skipped (spec 4.5, 7). -/
def matchesRestriction (fromWay viaNode toWay : String) (r : Relation) : Bool :=
  tagLookup r.tags "type" == some "restriction" &&
  (memberByRole r "from").map Member.id == some fromWay &&
  (memberByRole r "via").map Member.id == some viaNode &&
  (memberByRole r "to").map Member.id == some toWay

/-- Modelled from the spec: the id of the first relation governing the turn. -/
def findRestriction (rels : List Relation) (fromWay viaNode toWay : String) :
    Option String :=
  (rels.find? (matchesRestriction fromWay viaNode toWay)).map Relation.id

/-- Modelled from the spec: the raw candidate turn set (spec 4.5), before
restriction annotation.  Empty when the from segment is absent, when arrival
at the vertex along it is not permitted, or when it has no neighbor node. -/
def rawTurns (segs : List Segment) (v : String) (fromId : String) : List Turn :=
  match segs.find? (fun s => s.id == fromId) with
  | none => []
  | some s =>
    if canArrive s v then
      match neighborAt s v with
      | none => []
      | some fn =>
        (segs.filter (fun t => !(t.parent == s.parent))).filterMap (fun t =>
          if canDepart t v then
            (neighborAt t v).map (fun tn => ⟨fn, s.parent, v, tn, t.parent, none⟩)
          else none)
    else []

/-- Modelled from the spec: attach the governing restriction relation's id to
a raw turn (spec 4.5 restriction annotation). -/
def annotate (rels : List Relation) (t : Turn) : Turn :=
  { t with restriction := findRestriction rels t.fromWay t.viaNode t.toWay }

/-- Modelled from the spec: the turn enumerator — the raw candidate turn set
with restriction annotation applied (spec 4.5). -/
def computeTurns (g : Graph) (v : String) (fromId : String) : List Turn :=
  (rawTurns (buildIntersection g v) v fromId).map (annotate g.relations)

/-- Erase a turn's restriction field, leaving every other field. -/
def stripRestriction (t : Turn) : Turn :=
  { t with restriction := none }

/-! Example snapshots, mirroring the graphs of the source's test suite. -/

/-- Tags of a plain residential highway. -/
def tagsHw : Tags := [("highway", "residential")]

/-- Highway tags with a forward one-way tag. -/
def tagsHwOnewayYes : Tags := [("highway", "residential"), ("oneway", "yes")]

/-- Highway tags with a reverse one-way tag. -/
def tagsHwOnewayRev : Tags := [("highway", "residential"), ("oneway", "-1")]

/-- The single turn from u via * to w, from way "=" onto way "-". -/
def turnUW : Turn := ⟨"u", "=", "*", "w", "-", none⟩

/-- From-way "=" tagged oneway=yes with nodes u then *, to-way "-" untagged. -/
def gOnewayYesForward : Graph :=
  ⟨[⟨"=", ["u", "*"], tagsHwOnewayYes⟩, ⟨"-", ["*", "w"], tagsHw⟩], []⟩

/-- From-way "=" tagged oneway=-1 with nodes u then * (same order), to-way untagged. -/
def gOnewayRevSameOrder : Graph :=
  ⟨[⟨"=", ["u", "*"], tagsHwOnewayRev⟩, ⟨"-", ["*", "w"], tagsHw⟩], []⟩

/-- From-way "=" tagged oneway=yes with nodes reversed (* then u), to-way untagged. -/
def gOnewayYesReversed : Graph :=
  ⟨[⟨"=", ["*", "u"], tagsHwOnewayYes⟩, ⟨"-", ["*", "w"], tagsHw⟩], []⟩

/-- From-way "=" tagged oneway=-1 with nodes reversed (* then u), to-way untagged. -/
def gOnewayRevReversed : Graph :=
  ⟨[⟨"=", ["*", "u"], tagsHwOnewayRev⟩, ⟨"-", ["*", "w"], tagsHw⟩], []⟩

/-- C5: multiple-neighbors case — when the to-way threads through the vertex
with two distinct adjacent nodes along its sequence and is a different way
from the from-way, the enumerator emits exactly one turn per adjacent
neighbor node, both carrying the to-way's id. -/
theorem c5_two_neighbors (u v w x fid tid : String)
    (huv : u ≠ v) (hwv : w ≠ v) (hxv : x ≠ v) (hwx : w ≠ x) (htf : tid ≠ fid) :
    computeTurns
      ⟨[⟨fid, [u, v], [("highway", "residential")]⟩,
        ⟨tid, [w, v, x], [("highway", "residential")]⟩], []⟩ v fid =
      [⟨u, fid, v, w, tid, none⟩, ⟨u, fid, v, x, tid, none⟩] := by
  simp [computeTurns, buildIntersection, wayAtVertex, isHighway,
    isAreaNotLine, wayClosed, isAreaTag, isDegenerate, tagLookup, splitSegments,
    rawTurns, canArrive, canDepart, onewayOf, neighborAt, annotate,
    findRestriction, stripRestriction, List.dedup_cons_of_not_mem,
    List.findIdx?_cons,
    huv, hwv, hxv, hwx, htf, Ne.symm huv, Ne.symm hwv, Ne.symm hxv, Ne.symm hwx,
    Ne.symm htf]

/-- C5 witness: the test-suite junction — from-way "=" over nodes u, *,
to-way "-" over nodes w, *, x — yields exactly the turns to w and to x. -/
theorem c5_witness :
    computeTurns
      ⟨[⟨"=", ["u", "*"], [("highway", "residential")]⟩,
        ⟨"-", ["w", "*", "x"], [("highway", "residential")]⟩], []⟩ "*" "=" =
      [⟨"u", "=", "*", "w", "-", none⟩, ⟨"u", "=", "*", "x", "-", none⟩] :=
  c5_two_neighbors "u" "*" "w" "x" "=" "-" (by decide) (by decide) (by decide)
    (by decide) (by decide)


/-- The first index of v in a list that contains v: the prefix through that
index ends at v, the suffix from it starts at v, and the outer endpoints of
prefix and suffix are the list's own endpoints. -/
theorem findIdx_split_spec (l : List String) (v : String) (hin : v ∈ l) :
    ∃ i, l.findIdx? (fun n => n == v) = some i ∧
      (l.take (i + 1)).head? = l.head? ∧
      (l.take (i + 1)).getLast? = some v ∧
      (l.drop i).head? = some v ∧
      (l.drop i).getLast? = l.getLast? := by
  induction l with
  | nil => cases hin
  | cons a t ih =>
    by_cases hav : a = v
    · exact ⟨0, by simp [List.findIdx?_cons, hav], by simp, by simp [hav],
        by simp [hav], rfl⟩
    · have hvt : v ∈ t := (List.mem_cons.mp hin).resolve_left (fun h => hav h.symm)
      obtain ⟨i, hfi, hth, htl, hdh, hdl⟩ := ih hvt
      have htne : t ≠ [] := by
        intro h
        rw [h] at hvt
        cases hvt
      refine ⟨i + 1, ?_, ?_, ?_, ?_, ?_⟩
      · simp [List.findIdx?_cons, hav, hfi]
      · simp
      · rw [List.take_succ_cons, List.getLast?_cons, htl]
        rfl
      · rw [List.drop_succ_cons]
        exact hdh
      · rw [List.drop_succ_cons, hdl, List.getLast?_cons]
        have hne : t.getLast? ≠ none := by
          simpa [List.getLast?_eq_none_iff] using htne
        cases hgl : t.getLast? with
        | none => exact absurd hgl hne
        | some b => rfl

/-- Every segment the way splitter produces carries the originating way's id
as its parent. -/
theorem splitSegments_parent (w : Way) (v : String) :
    ∀ s ∈ splitSegments w v, s.parent = w.id := by
  intro s hs
  unfold splitSegments at hs
  split at hs
  · simp at hs
    subst hs
    rfl
  · split at hs
    · cases hs
    · simp at hs
      rcases hs with rfl | rfl <;> rfl

/-- In a snapshot whose way ids are distinct, the segments whose parent is a
given surviving way are exactly that way's split segments. -/
theorem filter_parent_flatMap (v : String) (q : Way → Bool) (w : Way) :
    ∀ ways : List Way, (ways.map Way.id).Nodup → w ∈ ways → q w = true →
    ((ways.filter q).flatMap (fun w' => splitSegments w' v)).filter
      (fun s => s.parent == w.id) = splitSegments w v := by
  intro ways
  induction ways with
  | nil => intro _ hmem _; cases hmem
  | cons a t ih =>
    intro hnodup hmem hq
    have hna : a.id ∉ t.map Way.id := (List.nodup_cons.mp hnodup).1
    have hnt : (t.map Way.id).Nodup := (List.nodup_cons.mp hnodup).2
    rcases List.mem_cons.mp hmem with rfl | hmt
    · rw [List.filter_cons_of_pos hq, List.flatMap_cons, List.filter_append]
      have h1 : (splitSegments w v).filter (fun s => s.parent == w.id) =
          splitSegments w v := by
        rw [List.filter_eq_self]
        intro s hs
        rw [splitSegments_parent w v s hs]
        simp
      have h2 : ((t.filter q).flatMap (fun w' => splitSegments w' v)).filter
          (fun s => s.parent == w.id) = [] := by
        rw [List.filter_eq_nil_iff]
        intro s hs
        obtain ⟨w', hw', hsw'⟩ := List.mem_flatMap.mp hs
        rw [splitSegments_parent w' v s hsw']
        have hw'id : w'.id ∈ t.map Way.id :=
          List.mem_map_of_mem Way.id (List.mem_of_mem_filter hw')
        simp only [beq_iff_eq]
        intro hEq
        exact hna (hEq ▸ hw'id)
      rw [h1, h2, List.append_nil]
    · have hwa : w.id ≠ a.id := by
        intro hEq
        exact hna (hEq ▸ List.mem_map_of_mem Way.id hmt)
      by_cases hqa : q a = true
      · rw [List.filter_cons_of_pos hqa, List.flatMap_cons, List.filter_append]
        have h0 : (splitSegments a v).filter (fun s => s.parent == w.id) = [] := by
          rw [List.filter_eq_nil_iff]
          intro s hs
          rw [splitSegments_parent a v s hs]
          simp only [beq_iff_eq]
          exact fun h => hwa h.symm
        rw [h0, List.nil_append]
        exact ih hnt hmt hq
      · rw [List.filter_cons_of_neg (by simpa using hqa)]
        exact ih hnt hmt hq

/-- C6: way splitting — a way with the vertex at an endpoint contributes
itself as the single unsplit segment; a way containing the vertex strictly
inside its node sequence splits into exactly two segments, one from the first
node through the vertex inclusive and one from the vertex through the last
node inclusive, with ids derived from the way's id by the suffixes ".a" and
".b" and both carrying the way's tag mapping unchanged; and in any snapshot
with distinct way ids, buildIntersection's segments for that way are exactly
these. -/
theorem c6_way_splitting (w : Way) (v : String) :
    ((w.nodes.head? = some v ∨ w.nodes.getLast? = some v) →
      splitSegments w v = [⟨w.id, w.nodes, w.tags, w.id⟩])
  ∧ (v ∈ w.nodes → w.nodes.head? ≠ some v → w.nodes.getLast? ≠ some v →
      ∃ i, w.nodes.findIdx? (fun n => n == v) = some i ∧
        splitSegments w v =
          [⟨w.id ++ ".a", w.nodes.take (i + 1), w.tags, w.id⟩,
           ⟨w.id ++ ".b", w.nodes.drop i, w.tags, w.id⟩] ∧
        (w.nodes.take (i + 1)).head? = w.nodes.head? ∧
        (w.nodes.take (i + 1)).getLast? = some v ∧
        (w.nodes.drop i).head? = some v ∧
        (w.nodes.drop i).getLast? = w.nodes.getLast?)
  ∧ (∀ g : Graph, (g.ways.map Way.id).Nodup → w ∈ g.ways →
      wayAtVertex w v = true →
      (buildIntersection g v).filter (fun s => s.parent == w.id) =
        splitSegments w v) := by
  refine ⟨?_, ?_, ?_⟩
  · intro h
    unfold splitSegments
    rw [if_pos]
    rcases h with h | h <;> simp [h]
  · intro hin hh hl
    obtain ⟨i, hfi, hth, htl, hdh, hdl⟩ := findIdx_split_spec w.nodes v hin
    refine ⟨i, hfi, ?_, hth, htl, hdh, hdl⟩
    unfold splitSegments
    rw [if_neg, hfi]
    simp [hh, hl]
  · intro g hnodup hmem hq
    exact filter_parent_flatMap v _ w g.ways hnodup hmem hq

/-- C7: intersection filtering postcondition — every segment of
buildIntersection originates from a way of the snapshot that references the
vertex, is classified a highway, is not an area, and is not degenerate; and
a way failing the participation predicate contributes nothing: adding it to
any snapshot leaves the intersection unchanged, regardless of topology. -/
theorem c7_intersection_filter (g : Graph) (v : String) :
    (∀ s ∈ buildIntersection g v, ∃ w : Way, w ∈ g.ways ∧ s.parent = w.id ∧
      v ∈ w.nodes ∧ isHighway w = true ∧ isAreaNotLine w = false ∧
      isDegenerate w = false ∧ s ∈ splitSegments w v)
  ∧ (∀ w : Way, wayAtVertex w v = false →
      buildIntersection ⟨w :: g.ways, g.relations⟩ v = buildIntersection g v) := by
  constructor
  · intro s hs
    obtain ⟨w, hw, hsw⟩ := List.mem_flatMap.mp hs
    obtain ⟨hmem, hcond⟩ := List.mem_filter.mp hw
    have h1 : ((v ∈ w.nodes ∧ isHighway w = true) ∧ isAreaNotLine w = false) ∧
        isDegenerate w = false := by
      simpa [wayAtVertex, Bool.and_eq_true] using hcond
    exact ⟨w, hmem, splitSegments_parent w v s hsw, h1.1.1.1, h1.1.1.2, h1.1.2,
      h1.2, hsw⟩
  · intro w hq
    show ((w :: g.ways).filter (fun w' => wayAtVertex w' v)).flatMap
        (fun w' => splitSegments w' v) = buildIntersection g v
    rw [List.filter_cons_of_neg (by simp [hq])]
    rfl

end IdEngine

namespace IdEngine

/-- C1: the directionality resolver rule — a segment with no one-way tag
permits both arriving at and departing from the vertex; a segment tagged
one-way forward (value yes/true/1) permits arriving iff the vertex is not the
first node of its sequence and departing iff it is not the last node; a
segment tagged one-way reverse (value -1) permits arriving iff the vertex is
not the last node and departing iff it is not the first node. -/
theorem c1_directionality_resolver (s : Segment) (v : String) :
    (tagLookup s.tags "oneway" = none →
      canArrive s v = true ∧ canDepart s v = true)
  ∧ ((tagLookup s.tags "oneway" = some "yes" ∨
      tagLookup s.tags "oneway" = some "true" ∨
      tagLookup s.tags "oneway" = some "1") →
      ((canArrive s v = true ↔ ¬ s.nodes.head? = some v)
     ∧ (canDepart s v = true ↔ ¬ s.nodes.getLast? = some v)))
  ∧ (tagLookup s.tags "oneway" = some "-1" →
      ((canArrive s v = true ↔ ¬ s.nodes.getLast? = some v)
     ∧ (canDepart s v = true ↔ ¬ s.nodes.head? = some v))) := by
  refine ⟨?_, ?_, ?_⟩
  · intro h
    simp [canArrive, canDepart, onewayOf, h]
  · rintro (h | h | h) <;>
      simp [canArrive, canDepart, onewayOf, h]
  · intro h
    simp [canArrive, canDepart, onewayOf, h]

/-- Annotating and then erasing the restriction field leaves a raw turn's
other fields untouched. -/
theorem strip_annotate (rels : List Relation) (ts : List Turn) :
    (ts.map (annotate rels)).map stripRestriction = ts.map stripRestriction := by
  rw [List.map_map]
  have hfun : stripRestriction ∘ annotate rels = stripRestriction := by
    funext t
    cases t
    rfl
  rw [hfun]

/-- C2: restriction annotation is a pure frame extension — adding a relation
to the snapshot changes no field of any turn except the restriction field;
every emitted turn whose (from-way, via, to-way) triple the added relation
governs carries that relation's id as its restriction, and a turn whose
triple no relation of the snapshot governs carries no restriction at all. -/
theorem c2_restriction_frame (g : Graph) (r : Relation) (v fromId : String) :
    ((computeTurns ⟨g.ways, r :: g.relations⟩ v fromId).map stripRestriction =
      (computeTurns g v fromId).map stripRestriction)
  ∧ (∀ t ∈ computeTurns ⟨g.ways, r :: g.relations⟩ v fromId,
      matchesRestriction t.fromWay t.viaNode t.toWay r = true →
      t.restriction = some r.id)
  ∧ (∀ t ∈ computeTurns ⟨g.ways, r :: g.relations⟩ v fromId,
      (∀ r' ∈ r :: g.relations,
        matchesRestriction t.fromWay t.viaNode t.toWay r' = false) →
      t.restriction = none) := by
  refine ⟨?_, ?_, ?_⟩
  · show ((rawTurns (buildIntersection g v) v fromId).map
        (annotate (r :: g.relations))).map stripRestriction =
      ((rawTurns (buildIntersection g v) v fromId).map
        (annotate g.relations)).map stripRestriction
    rw [strip_annotate, strip_annotate]
  · intro t ht hm
    obtain ⟨t0, _, rfl⟩ := List.mem_map.mp ht
    have hm' : matchesRestriction t0.fromWay t0.viaNode t0.toWay r = true := by
      cases t0
      exact hm
    show findRestriction (r :: g.relations) t0.fromWay t0.viaNode t0.toWay = some r.id
    unfold findRestriction
    rw [List.find?_cons_of_pos _ hm']
    rfl
  · intro t ht hnone
    obtain ⟨t0, _, rfl⟩ := List.mem_map.mp ht
    have hnone' : ∀ r' ∈ r :: g.relations,
        matchesRestriction t0.fromWay t0.viaNode t0.toWay r' = false := by
      cases t0
      exact hnone
    show findRestriction (r :: g.relations) t0.fromWay t0.viaNode t0.toWay = none
    unfold findRestriction
    rw [List.find?_eq_none.mpr]
    · rfl
    · intro r' hr'
      simp [hnone' r' hr']

/-- C3: turn-enumerator precondition — when the directionality resolver does
not permit arriving at the vertex along the from-segment, computeTurns
returns the empty list; likewise a from id naming no segment of the
intersection yields the empty list rather than a failure. -/
theorem c3_no_arrival_empty (g : Graph) (v fromId : String) :
    (∀ s : Segment,
      (buildIntersection g v).find? (fun t => t.id == fromId) = some s →
      canArrive s v = false → computeTurns g v fromId = [])
  ∧ ((buildIntersection g v).find? (fun t => t.id == fromId) = none →
      computeTurns g v fromId = []) := by
  constructor
  · intro s hfind harr
    simp [computeTurns, rawTurns, hfind, harr]
  · intro hfind
    simp [computeTurns, rawTurns, hfind]

/-- C4 counterexample: with the from-segment's nodes in the order u then *,
tagging it oneway=-1 yields zero turns (the claim says it permits the single
turn), while oneway=-1 with the reversed order * then u permits the turn (the
claim says it yields zero). -/
theorem c4_counterexample :
    computeTurns gOnewayRevSameOrder "*" "=" = []
  ∧ computeTurns gOnewayRevReversed "*" "=" = [turnUW] := by decide

/-- C4 as amended: with an untagged to-segment, oneway=yes on the from-segment
with nodes u then * permits the single turn; oneway=-1 with the reversed node
order * then u also permits it; oneway=yes with nodes reversed (* then u)
yields zero turns; and oneway=-1 with nodes u then * yields zero turns. -/
theorem c4_oneway_from_amended :
    computeTurns gOnewayYesForward "*" "=" = [turnUW]
  ∧ computeTurns gOnewayRevReversed "*" "=" = [turnUW]
  ∧ computeTurns gOnewayYesReversed "*" "=" = []
  ∧ computeTurns gOnewayRevSameOrder "*" "=" = [] := by decide

end IdEngine

namespace Validator

open IdEngine (Tags tagLookup)

/-- An editable entity as the validator sees it: its type tag ("node" or
"way"), id, tag mapping, and (for ways) its node-id sequence. -/
structure Entity where
  etype : String
  id : String
  tags : Tags
  nodes : List String
deriving Repr, DecidableEq

/-- Modelled from the spec: the way entity's "closed" property (first node
id equals last node id and length at least 3); the entity implementation is
not in the source files. -/
def entityIsClosed (e : Entity) : Bool :=
  decide (e.nodes.length ≥ 3) && e.nodes.head? == e.nodes.getLast?

/-- Embedded from mismatched_geometry.js lines 14-29: the area-suggesting
tags of an entity, none unless the entity is an unclosed way whose
area-suggesting tags match a line preset and an area preset differently.
The external collaborators — the entity's tagSuggestingArea and the preset
index's matchTags — are passed in as functions. -/
def tagSuggestingLineIsArea
    (tagSuggestingArea : Tags → Option Tags)
    (matchTags : Tags → String → Option String)
    (e : Entity) : Option Tags :=
  if e.etype != "way" || entityIsClosed e then none
  else
    match tagSuggestingArea e.tags with
    | none => none
    | some tsa =>
      if matchTags tsa "line" == matchTags tsa "area" then none
      else some tsa

/-- Embedded from mismatched_geometry.js lines 73-121: the area_as_line
issue is raised exactly when tagSuggestingLineIsArea yields tags; the issue
is reduced to its subtype string. -/
def lineTaggedAsAreaIssue
    (tagSuggestingArea : Tags → Option Tags)
    (matchTags : Tags → String → Option String)
    (e : Entity) : Option String :=
  match tagSuggestingLineIsArea tagSuggestingArea matchTags e with
  | none => none
  | some _ => some "area_as_line"

/-- A resolved child node: id and 2D location (coordinates as rationals). -/
structure LocNode where
  id : String
  loc : ℚ × ℚ
deriving Repr, DecidableEq

/-- Which connect-endpoints fix is offered: merge the two endpoint nodes, or
close the way by appending its first node. -/
inductive ConnectFix where
  | mergeEndpoints
  | closeWay
deriving Repr, DecidableEq

/-- Embedded from mismatched_geometry.js lines 31-71
(makeConnectEndpointsFixOnClick): none for ways of fewer than three nodes;
if the spherical distance between the first and last child nodes is below
0.75 (meters) and replacing the last node by the first creates no
self-intersection, the fix merges the endpoints; otherwise, if appending the
first node creates no self-intersection, the fix closes the way; otherwise
none.  The external geo primitives — geoSphericalDistance and
geoHasSelfIntersections — are passed in as functions. -/
def makeConnectEndpointsFix
    (sphericalDistance : ℚ × ℚ → ℚ × ℚ → ℚ)
    (hasSelfIntersections : List LocNode → String → Bool)
    (wayNodeIds : List String)
    (nodes : List LocNode) : Option ConnectFix :=
  if wayNodeIds.length < 3 then none
  else
    match nodes.head?, nodes.getLast? with
    | some fn, some ln =>
      if sphericalDistance fn.loc ln.loc < 3 / 4 &&
          !hasSelfIntersections (nodes.dropLast ++ [fn]) fn.id then
        some ConnectFix.mergeEndpoints
      else if !hasSelfIntersections (nodes ++ [fn]) fn.id then
        some ConnectFix.closeWay
      else none
    | _, _ => none

/-- The allowed node geometries for a tag mapping, as osmNodeGeometriesForTags
reports them: whether point geometry and vertex geometry are allowed. -/
structure NodeGeometries where
  point : Bool
  vertex : Bool
deriving Repr, DecidableEq

/-- Embedded from mismatched_geometry.js lines 134-195: no issue for
non-nodes, tagless nodes, or nodes on an address line; a vertex_as_point
issue when the geometry is point, point is not allowed and vertex is; a
point_as_vertex issue when the geometry is vertex, vertex is not allowed and
point is; nothing otherwise.  The external collaborators —
osmNodeGeometriesForTags, the entity's geometry and its isOnAddressLine —
are passed in. -/
def vertexTaggedAsPointIssue
    (osmNodeGeometriesForTags : Tags → NodeGeometries)
    (geometry : String)
    (isOnAddressLine : Bool)
    (e : Entity) : Option String :=
  if e.etype != "node" then none
  else if e.tags.isEmpty then none
  else if isOnAddressLine then none
  else
    let allowed := osmNodeGeometriesForTags e.tags
    if geometry == "point" && !allowed.point && allowed.vertex then
      some "vertex_as_point"
    else if geometry == "vertex" && !allowed.vertex && allowed.point then
      some "point_as_vertex"
    else none

/-- A concrete tagSuggestingArea collaborator: an explicit area=yes tag
suggests an area. -/
def areaYesTagSuggestingArea : Tags → Option Tags := fun tags =>
  match tagLookup tags "area" with
  | some "yes" => some [("area", "yes")]
  | _ => none

/-- A concrete matchTags collaborator: only the area geometry matches a
preset. -/
def areaOnlyMatchTags : Tags → String → Option String := fun _ geom =>
  if geom == "area" then some "area-preset" else none

/-- An unclosed two-node way tagged area=yes. -/
def openAreaWay : Entity := ⟨"way", "w1", [("area", "yes")], ["a", "b"]⟩

/-- C9 counterexample: the validator raises the area_as_line issue for an
unclosed way carrying area=yes, and that way is not closed — so the issue is
not raised only for closed ways, contrary to the claim. -/
theorem c9_counterexample :
    lineTaggedAsAreaIssue areaYesTagSuggestingArea areaOnlyMatchTags openAreaWay =
      some "area_as_line"
  ∧ entityIsClosed openAreaWay = false := by decide

/-- C9 as amended: every entity for which the validator raises the
area_as_line issue is an unclosed (open) way carrying area-suggesting tags. -/
theorem c9_area_as_line_amended (tsa : Tags → Option Tags)
    (mt : Tags → String → Option String) (e : Entity)
    (h : (lineTaggedAsAreaIssue tsa mt e).isSome = true) :
    e.etype = "way" ∧ entityIsClosed e = false ∧ (tsa e.tags).isSome = true := by
  unfold lineTaggedAsAreaIssue at h
  split at h
  · simp at h
  · rename_i heq
    unfold tagSuggestingLineIsArea at heq
    split at heq
    · cases heq
    · rename_i hcond
      split at heq
      · cases heq
      · rename_i tsa0 htsa
        split at heq
        · cases heq
        · have hc : (e.etype != "way" || entityIsClosed e) = false := by
            simpa using hcond
          have h1 : (e.etype != "way") = false ∧ entityIsClosed e = false := by
            simpa using hc
          refine ⟨?_, h1.2, ?_⟩
          · have := h1.1
            simpa using this
          · rw [htsa]
            rfl

/-- C9 witness: the amended theorem applied to the concrete unclosed
area-tagged way. -/
theorem c9_witness :
    openAreaWay.etype = "way" ∧ entityIsClosed openAreaWay = false ∧
      (areaYesTagSuggestingArea openAreaWay.tags).isSome = true :=
  c9_area_as_line_amended areaYesTagSuggestingArea areaOnlyMatchTags openAreaWay
    (by decide)

/-- C8: the connect-endpoints fix — when the spherical distance between the
way's first and last nodes is below 0.75 and merging them creates no
self-intersection, the offered fix merges the endpoint nodes; otherwise, when
appending the first node to close the way creates no self-intersection, the
offered fix closes the way; both branches consult the same self-intersection
test. -/
theorem c8_connect_endpoints
    (dist : ℚ × ℚ → ℚ × ℚ → ℚ) (si : List LocNode → String → Bool)
    (wayNodeIds : List String) (nodes : List LocNode) (fn ln : LocNode)
    (hlen : ¬ wayNodeIds.length < 3)
    (hf : nodes.head? = some fn) (hl : nodes.getLast? = some ln) :
    (dist fn.loc ln.loc < 3 / 4 ∧ si (nodes.dropLast ++ [fn]) fn.id = false →
      makeConnectEndpointsFix dist si wayNodeIds nodes =
        some ConnectFix.mergeEndpoints)
  ∧ (¬ (dist fn.loc ln.loc < 3 / 4 ∧ si (nodes.dropLast ++ [fn]) fn.id = false) →
      si (nodes ++ [fn]) fn.id = false →
      makeConnectEndpointsFix dist si wayNodeIds nodes =
        some ConnectFix.closeWay) := by
  constructor
  · rintro ⟨hd, hsi⟩
    simp [makeConnectEndpointsFix, hlen, hf, hl, hd, hsi]
  · intro hnot hsi2
    have hcond : (decide (dist fn.loc ln.loc < 3 / 4) &&
        !si (nodes.dropLast ++ [fn]) fn.id) = false := by
      by_cases hd : dist fn.loc ln.loc < 3 / 4
      · have hs : si (nodes.dropLast ++ [fn]) fn.id = true := by
          rcases Bool.eq_false_or_eq_true (si (nodes.dropLast ++ [fn]) fn.id) with hb | hb
          · exact hb
          · exact absurd ⟨hd, hb⟩ hnot
        simp [hd, hs]
      · simp [hd]
    simp [makeConnectEndpointsFix, hlen, hf, hl, hcond, hsi2]

/-- A concrete distance collaborator returning zero. -/
def zeroDist : ℚ × ℚ → ℚ × ℚ → ℚ := fun _ _ => 0

/-- A concrete self-intersection collaborator reporting none. -/
def noSelfIntersections : List LocNode → String → Bool := fun _ _ => false

/-- A concrete node at the origin. -/
def nA : LocNode := ⟨"a", (0, 0)⟩

/-- A concrete node at (1, 0). -/
def nB : LocNode := ⟨"b", (1, 0)⟩

/-- A concrete node at (0, 1). -/
def nC : LocNode := ⟨"c", (0, 1)⟩

/-- C8 witness: the connect-endpoints theorem applied to a concrete
three-node way with zero endpoint distance and no self-intersections. -/
theorem c8_witness :
    (zeroDist nA.loc nC.loc < 3 / 4 ∧
        noSelfIntersections ([nA, nB, nC].dropLast ++ [nA]) nA.id = false →
      makeConnectEndpointsFix zeroDist noSelfIntersections ["a", "b", "c"]
        [nA, nB, nC] = some ConnectFix.mergeEndpoints)
  ∧ (¬ (zeroDist nA.loc nC.loc < 3 / 4 ∧
        noSelfIntersections ([nA, nB, nC].dropLast ++ [nA]) nA.id = false) →
      noSelfIntersections ([nA, nB, nC] ++ [nA]) nA.id = false →
      makeConnectEndpointsFix zeroDist noSelfIntersections ["a", "b", "c"]
        [nA, nB, nC] = some ConnectFix.closeWay) :=
  c8_connect_endpoints zeroDist noSelfIntersections ["a", "b", "c"] [nA, nB, nC]
    nA nC (by decide) rfl rfl

/-- C10: the point/vertex mismatch check returns nothing for non-nodes,
tagless nodes and nodes on an address line; it returns vertex_as_point
exactly when the node's geometry is point, point geometry is not allowed and
vertex geometry is; point_as_vertex exactly when the geometry is vertex,
vertex is not allowed and point is; and nothing in every other case. -/
theorem c10_vertex_point_issue (ong : Tags → NodeGeometries) (geom : String)
    (addr : Bool) (e : Entity) :
    (e.etype ≠ "node" → vertexTaggedAsPointIssue ong geom addr e = none)
  ∧ (e.tags.isEmpty = true → vertexTaggedAsPointIssue ong geom addr e = none)
  ∧ (addr = true → vertexTaggedAsPointIssue ong geom addr e = none)
  ∧ (vertexTaggedAsPointIssue ong geom addr e = some "vertex_as_point" ↔
      e.etype = "node" ∧ e.tags.isEmpty = false ∧ addr = false ∧
      geom = "point" ∧ (ong e.tags).point = false ∧ (ong e.tags).vertex = true)
  ∧ (vertexTaggedAsPointIssue ong geom addr e = some "point_as_vertex" ↔
      e.etype = "node" ∧ e.tags.isEmpty = false ∧ addr = false ∧
      geom = "vertex" ∧ (ong e.tags).vertex = false ∧ (ong e.tags).point = true)
  ∧ (vertexTaggedAsPointIssue ong geom addr e = none ∨
      vertexTaggedAsPointIssue ong geom addr e = some "vertex_as_point" ∨
      vertexTaggedAsPointIssue ong geom addr e = some "point_as_vertex") := by
  unfold vertexTaggedAsPointIssue
  refine ⟨?_, ?_, ?_, ?_, ?_, ?_⟩ <;>
    split_ifs <;>
    by_cases hp : geom = "point" <;>
    by_cases hv : geom = "vertex" <;>
    by_cases hap : (ong e.tags).point = true <;>
    by_cases hav : (ong e.tags).vertex = true <;>
    simp_all

end Validator
